import Mathlib

/-!
Verification development for the USB CDC-ACM ↔ BLE UART bridge
(`src/main/main.c`).

The program relays byte chunks between a wired USB CDC-ACM serial device
and a BLE Nordic-UART wireless service.  We shallowly embed the pieces of
the C source the specification talks about:

* the line buffer manipulation in `handle_rx` (wired → wireless callback):
  `strncpy` into a static `CONFIG_NORDIC_UART_MAX_LINE_LENGTH + 1` byte
  buffer, terminator write, BLE send, and carriage-return replacement at
  `size_t` index `data_len - 2`;
* the `echoTask` loop body (wireless → wired pump): ring-buffer dequeue,
  `strncpy` + terminator, log, `cdc_acm_host_data_tx_blocking` with
  `strlen(mbuf)` bytes and a 1000 ms timeout, ring-buffer item return;
* the `handle_event` device-event callback (close handle, give semaphore);
* the `app_main` lifecycle loop (open, delay, line-coding get/set/get,
  control-line state, block on the disconnect semaphore), with
  `ESP_ERROR_CHECK` aborting the process on failure.

Bytes are `Nat` (values 0‥255 in practice); buffers are `List Nat`.
A fallible buffer operation returns `Option`: `none` marks an access
outside the `capacity`-cell buffer, i.e. undefined behavior in the C
source.  `size_t` index arithmetic is modelled explicitly modulo `2 ^ 64`.
-/

/-- Capacity of both static line buffers: `CONFIG_NORDIC_UART_MAX_LINE_LENGTH + 1`
cells (`maxLine` stands for the configured maximum line length). -/
def capacity (maxLine : Nat) : Nat := maxLine + 1

/-- Timeout passed to `cdc_acm_host_data_tx_blocking` (`USB_TX_TIMEOUT_MS`). -/
def USB_TX_TIMEOUT_MS : Nat := 1000

/-- Vendor id of the target device (`MD9600_USB_DEVICE_VID`, `0x1FC9`). -/
def MD9600_USB_DEVICE_VID : Nat := 0x1FC9

/-- Product id of the target device (`MD9600_USB_DEVICE_PID`, `0x0094`). -/
def MD9600_USB_DEVICE_PID : Nat := 0x0094

/-- Effect of `strncpy(dst, src, n)` with `n = src.length` on the first `n`
cells of `dst`: bytes of `src` are copied up to and excluding the first null
byte, and the remaining cells up to `n` are filled with nulls.  The result
lists the `n` written cells. -/
def strncpyBytes : List Nat → List Nat
  | [] => []
  | b :: rest =>
    if b = 0 then List.replicate (rest.length + 1) 0
    else b :: strncpyBytes rest

/-- Bytes of the C string held in a buffer: everything before the first
null byte (what `nordic_uart_send`, `ESP_LOGI "%s"` and `strlen` read). -/
def cstr (buf : List Nat) : List Nat := buf.takeWhile (· ≠ 0)

/-- Shared first phase of both directions' buffer fills:
`strncpy(mbuf, data, data_len); mbuf[data_len] = 0;` on a buffer of
`capacity maxLine` cells whose previous contents are `oldBuf`.
`strncpy` writes exactly `data_len` cells and the terminator store writes
cell `data_len`, so any `data_len ≥ capacity` writes outside the buffer:
the model returns `none` (undefined behavior in the source, which has no
bounds check). -/
def copy_terminate (maxLine : Nat) (oldBuf chunk : List Nat) : Option (List Nat) :=
  if chunk.length < capacity maxLine then
    some (strncpyBytes chunk ++ 0 :: oldBuf.drop (chunk.length + 1))
  else none

/-- Observable effect of one `handle_rx` invocation. -/
structure RxEffect where
  /-- Bytes handed to `nordic_uart_send` (the buffer's C string at the
  moment of the call, before the carriage-return replacement). -/
  sent : List Nat
  /-- Bytes logged by `ESP_LOGI "UART->BLE"` after the carriage-return
  replacement. -/
  logged : List Nat
  /-- Final buffer contents. -/
  buf : List Nat
  deriving Repr, DecidableEq

/-- The data-received callback `handle_rx`: copy the chunk with `strncpy`,
write the terminator at `data_len`, send the buffer to the BLE UART, then
look up the buffer at `size_t` index `data_len - 2` (which wraps modulo
`2 ^ 64` when `data_len < 2`) and replace a carriage return there with the
terminator, then log the buffer.  `none` marks an out-of-bounds buffer
access in the source (unchecked copy, or the wrapped index). -/
def handle_rx (maxLine : Nat) (oldBuf chunk : List Nat) : Option RxEffect :=
  match copy_terminate maxLine oldBuf chunk with
  | none => none
  | some buf =>
    let sentLine := cstr buf
    let idx := (chunk.length + (2 ^ 64 - 2)) % 2 ^ 64
    if idx < capacity maxLine then
      let buf2 := if buf[idx]? = some 13 then buf.set idx 0 else buf
      some { sent := sentLine, logged := cstr buf2, buf := buf2 }
    else none

/- ### Helper lemmas about the byte-level operations -/

theorem strncpyBytes_length (chunk : List Nat) :
    (strncpyBytes chunk).length = chunk.length := by
  induction chunk with
  | nil => rfl
  | cons b rest ih =>
    by_cases hb : b = 0 <;> simp [strncpyBytes, hb, ih]

theorem cstr_strncpy_append (chunk rest : List Nat) :
    cstr (strncpyBytes chunk ++ 0 :: rest) = chunk.takeWhile (· ≠ 0) := by
  induction chunk with
  | nil => simp [strncpyBytes, cstr]
  | cons b cs ih =>
    by_cases hb : b = 0
    · subst hb
      simp [strncpyBytes, cstr, List.replicate_succ, List.takeWhile]
    · simp [strncpyBytes, hb, cstr, List.takeWhile] at ih ⊢
      exact ih

/-- A byte of the copied region: position `i < chunk.length` of the filled
buffer holds byte `i` of the `strncpy` image of the chunk. -/
theorem copyBuf_getElem_lt (chunk rest : List Nat) (i : Nat) (hi : i < chunk.length) :
    (strncpyBytes chunk ++ 0 :: rest)[i]? = (strncpyBytes chunk)[i]? := by
  rw [List.getElem?_append]
  simp [strncpyBytes_length, hi]

theorem copyBuf_getElem_term (chunk rest : List Nat) :
    (strncpyBytes chunk ++ 0 :: rest)[chunk.length]? = some 0 := by
  rw [List.getElem?_append_right (by simp [strncpyBytes_length])]
  simp [strncpyBytes_length]

/-- When the buffer holds a null byte at position `n`, its C string is at
most `n` bytes long. -/
theorem cstr_length_le (buf : List Nat) (n : Nat) (h : buf[n]? = some 0) :
    (cstr buf).length ≤ n := by
  induction buf generalizing n with
  | nil => simp [cstr]
  | cons b bs ih =>
    cases n with
    | zero =>
      simp at h
      simp [cstr, List.takeWhile, h]
    | succ m =>
      simp at h
      by_cases hb : b = 0
      · simp [cstr, List.takeWhile, hb]
      · simpa [cstr, List.takeWhile, hb, Nat.succ_le_succ_iff] using ih m h

/- ### Wireless → wired pump (`echoTask`) -/

/-- One observable action of the `echoTask` loop body. -/
inductive EchoAct where
  /-- `vTaskDelay(1000 / portTICK_PERIOD_MS)` taken when
  `nordic_uart_rx_buf_handle` is null. -/
  | taskDelayMs (ms : Nat)
  /-- `ESP_LOGI "BLE->UART"` of the framed line. -/
  | logLine (bytes : List Nat)
  /-- `cdc_acm_host_data_tx_blocking(cdc_dev, mbuf, strlen(mbuf), USB_TX_TIMEOUT_MS)`;
  records whether `cdc_dev` was non-null, the bytes read from the buffer,
  the byte count argument and the timeout argument. -/
  | cdcTx (devPresent : Bool) (bytes : List Nat) (len timeoutMs : Nat)
  /-- `ESP_LOGW "BLE->UART"` after a failed send. -/
  | logSendFail
  /-- `vRingbufferReturnItem` releasing the dequeued item. -/
  | returnItem
  deriving Repr, DecidableEq

/-- Processing of one dequeued chunk inside `echoTask`:
`strncpy` + terminator into the static buffer, log, blocking send of
`strlen(mbuf)` bytes with the 1000 ms timeout, release of the item.
`devPresent` is whether `cdc_dev` is non-null at the send (the source never
checks it), `sendOk` is whether the send returned `ESP_OK`.  `none` marks
an out-of-bounds buffer write (chunk at least as long as the buffer). -/
def echoTask_chunk (maxLine : Nat) (oldBuf chunk : List Nat)
    (devPresent sendOk : Bool) : Option (List EchoAct) :=
  match copy_terminate maxLine oldBuf chunk with
  | none => none
  | some buf =>
    let s := cstr buf
    some ([EchoAct.logLine s, EchoAct.cdcTx devPresent s s.length USB_TX_TIMEOUT_MS]
      ++ (if sendOk then [] else [EchoAct.logSendFail]) ++ [EchoAct.returnItem])

/-- One iteration of the `echoTask` outer loop.  When the wireless queue
handle `nordic_uart_rx_buf_handle` is null the task only delays 1000 ms;
otherwise it blocks on `xRingbufferReceive` and, when an item arrives,
processes it with `echoTask_chunk`.  Note the guard tests the queue
handle, not the wired device handle. -/
def echoTask_iter (maxLine : Nat) (queuePresent : Bool) (oldBuf : List Nat)
    (item : Option (List Nat)) (devPresent sendOk : Bool) : Option (List EchoAct) :=
  if queuePresent then
    match item with
    | none => some []
    | some chunk => echoTask_chunk maxLine oldBuf chunk devPresent sendOk
  else some [EchoAct.taskDelayMs 1000]

/-- Number of wired-send attempts in an action trace. -/
def countTx : List EchoAct → Nat
  | [] => 0
  | EchoAct.cdcTx _ _ _ _ :: rest => countTx rest + 1
  | _ :: rest => countTx rest

/-- Bytes argument of the first wired-send attempt in a trace, if any. -/
def firstTxBytes : List EchoAct → Option (List Nat)
  | [] => none
  | EchoAct.cdcTx _ bytes _ _ :: _ => some bytes
  | _ :: rest => firstTxBytes rest

/-- Byte-count argument of the first wired-send attempt in a trace. -/
def firstTxLen : List EchoAct → Option Nat
  | [] => none
  | EchoAct.cdcTx _ _ len _ :: _ => some len
  | _ :: rest => firstTxLen rest

/- ### Device event callback (`handle_event`) -/

/-- Events delivered to `handle_event` by the CDC-ACM host driver. -/
inductive CdcEvent where
  | error (errNo : Int)
  | deviceDisconnected
  | serialState (val : Nat)
  | networkConnection
  deriving Repr, DecidableEq

/-- Observable actions of `handle_event`. -/
inductive EvAct where
  | logError
  | logInfo
  | logWarning
  /-- `cdc_acm_host_close(event->data.cdc_hdl)` (under `ESP_ERROR_CHECK`). -/
  | closeHandle
  /-- `xSemaphoreGive(device_disconnected_sem)`. -/
  | giveDisconnectSem
  deriving Repr, DecidableEq

/-- The device event callback `handle_event`: on disconnect it logs, closes
the device handle, then gives the disconnect semaphore; every other event
only logs. -/
def handle_event : CdcEvent → List EvAct
  | CdcEvent.error _ => [EvAct.logError]
  | CdcEvent.deviceDisconnected =>
      [EvAct.logInfo, EvAct.closeHandle, EvAct.giveDisconnectSem]
  | CdcEvent.serialState _ => [EvAct.logInfo]
  | CdcEvent.networkConnection => [EvAct.logWarning]

/-- Number of semaphore gives in an event-callback trace. -/
def countGive : List EvAct → Nat
  | [] => 0
  | EvAct.giveDisconnectSem :: rest => countGive rest + 1
  | _ :: rest => countGive rest

/-- Holds when every semaphore give in the trace is preceded by a handle
close (first argument: whether a close has already happened). -/
def closedBeforeGiven : Bool → List EvAct → Bool
  | _, [] => true
  | seenClose, EvAct.giveDisconnectSem :: rest =>
      seenClose && closedBeforeGiven seenClose rest
  | _, EvAct.closeHandle :: rest => closedBeforeGiven true rest
  | seenClose, _ :: rest => closedBeforeGiven seenClose rest

/- ### Lifecycle loop (`app_main`) -/

/-- Observable actions of one `app_main` loop iteration. -/
inductive HostAction where
  /-- `cdc_acm_host_open(vid, pid, 0, &dev_config, &cdc_dev)`. -/
  | openDev (vid pid : Nat)
  /-- `ESP_LOGI "Failed to open device"` before retrying. -/
  | logOpenFailed
  /-- `vTaskDelay(pdMS_TO_TICKS(100))` settle delay after a successful open. -/
  | delayMs (ms : Nat)
  /-- `cdc_acm_host_line_coding_get`. -/
  | lineCodingGet
  /-- `cdc_acm_host_line_coding_set` with the written field values
  `dwDTERate`, `bDataBits`, `bParityType`, `bCharFormat`. -/
  | lineCodingSet (rate dataBits parityType charFormat : Nat)
  /-- `cdc_acm_host_set_control_line_state(cdc_dev, dtr, rts)`. -/
  | setControlLineState (dtr rts : Bool)
  /-- `ESP_ERROR_CHECK` failure: the process aborts. -/
  | abortProcess
  /-- `xSemaphoreTake(device_disconnected_sem, portMAX_DELAY)`. -/
  | takeDisconnectSem
  deriving Repr, DecidableEq

/-- One iteration of the `app_main` outer loop, as the sequence of actions
it performs, given which external calls succeed: `openOk` the device open,
`g1` the first line-coding get, `s1` the line-coding set, `g2` the second
line-coding get, `ctrl` the control-line-state set.  A failed open logs and
retries (`continue`); every configuration call is wrapped in
`ESP_ERROR_CHECK`, so its failure aborts the whole process. -/
def app_main_iter (openOk g1 s1 g2 ctrl : Bool) : List HostAction :=
  HostAction.openDev MD9600_USB_DEVICE_VID MD9600_USB_DEVICE_PID ::
  (if !openOk then [HostAction.logOpenFailed]
   else HostAction.delayMs 100 :: HostAction.lineCodingGet ::
     (if !g1 then [HostAction.abortProcess]
      else HostAction.lineCodingSet 115200 8 0 1 ::
        (if !s1 then [HostAction.abortProcess]
         else HostAction.lineCodingGet ::
           (if !g2 then [HostAction.abortProcess]
            else HostAction.setControlLineState true false ::
              (if !ctrl then [HostAction.abortProcess]
               else [HostAction.takeDisconnectSem])))))

/-- Outcome of one `app_main` loop iteration. -/
inductive LoopOutcome where
  /-- Open failed: log and retry immediately (loop `continue`). -/
  | retryOpen
  /-- An `ESP_ERROR_CHECK` failed: the process terminates. -/
  | aborted
  /-- Fully configured: blocked on the disconnect semaphore. -/
  | connectedWait
  deriving Repr, DecidableEq

/-- Outcome of an `app_main` iteration, read off its action trace. -/
def outcomeOf (tr : List HostAction) : LoopOutcome :=
  if HostAction.abortProcess ∈ tr then LoopOutcome.aborted
  else if HostAction.takeDisconnectSem ∈ tr then LoopOutcome.connectedWait
  else LoopOutcome.retryOpen

/- ### Further helper lemmas -/

/-- Writing a null byte at position `n` truncates the buffer's C string to
its first `n` bytes. -/
theorem cstr_set_zero (l : List Nat) (n : Nat) :
    cstr (l.set n 0) = (cstr l).take n := by
  induction l generalizing n with
  | nil => simp [cstr]
  | cons b bs ih =>
    cases n with
    | zero => simp [cstr, List.takeWhile]
    | succ m =>
      by_cases hb : b = 0
      · simp [cstr, List.takeWhile, hb]
      · simp [cstr, List.takeWhile, hb, List.set_cons_succ] at ih ⊢
        exact ih m

/-- A chunk without embedded null bytes survives `cstr` unchanged. -/
theorem takeWhile_of_no_null (chunk : List Nat) (h : 0 ∉ chunk) :
    chunk.takeWhile (· ≠ 0) = chunk := by
  rw [List.takeWhile_eq_self_iff]
  intro x hx
  simp only [ne_eq, decide_eq_true_eq]
  intro hx0
  exact h (hx0 ▸ hx)

/-- Closed form of a successful `handle_rx` run: for chunks of length
`2 ≤ L ≤ maxLine` (with the buffer smaller than the address space) the
`size_t` index `data_len - 2` evaluates to `L - 2`, the copy and terminator
succeed, the C string of the filled buffer is sent, and the carriage-return
replacement is applied to the buffer before logging. -/
theorem handle_rx_eq (maxLine : Nat) (oldBuf chunk : List Nat)
    (h2 : 2 ≤ chunk.length) (hlen : chunk.length ≤ maxLine)
    (hcap : maxLine ≤ 2 ^ 64 - 3) :
    handle_rx maxLine oldBuf chunk =
      some { sent := cstr (strncpyBytes chunk ++ 0 :: oldBuf.drop (chunk.length + 1)),
             logged := cstr (if (strncpyBytes chunk ++ 0 :: oldBuf.drop (chunk.length + 1))[chunk.length - 2]? = some 13
               then (strncpyBytes chunk ++ 0 :: oldBuf.drop (chunk.length + 1)).set (chunk.length - 2) 0
               else strncpyBytes chunk ++ 0 :: oldBuf.drop (chunk.length + 1)),
             buf := (if (strncpyBytes chunk ++ 0 :: oldBuf.drop (chunk.length + 1))[chunk.length - 2]? = some 13
               then (strncpyBytes chunk ++ 0 :: oldBuf.drop (chunk.length + 1)).set (chunk.length - 2) 0
               else strncpyBytes chunk ++ 0 :: oldBuf.drop (chunk.length + 1)) } := by
  have hlt : chunk.length < capacity maxLine := by
    simp only [capacity]; omega
  have hidx : (chunk.length + (2 ^ 64 - 2)) % 2 ^ 64 = chunk.length - 2 := by
    omega
  have hidxlt : chunk.length - 2 < capacity maxLine := by
    simp only [capacity]; omega
  simp only [handle_rx, copy_terminate, hlt, if_pos, hidx, hidxlt]

/- ### Claims -/

/-- C1, counterexample.  The claim ranges over all chunk lengths
`1 ≤ L ≤ capacity − 1`, but at `L = 1` (here: capacity 64, chunk the single
byte 65) the carriage-return lookup `mbuf[data_len - 2]` wraps to `size_t`
index `2 ^ 64 - 1`, an out-of-bounds read, so `handle_rx` does not produce
the claimed terminated buffer at this in-range length. -/
theorem C1_counterexample :
    ¬ ∃ e, handle_rx 63 (List.replicate 64 0) [65] = some e ∧
      e.buf[(1 : Nat)]? = some 0 := by
  intro h
  obtain ⟨e, he, -⟩ := h
  have hn : handle_rx 63 (List.replicate 64 0) [65] = none := by decide
  rw [hn] at he
  exact Option.noConfusion he

/-- C1 (amended to chunk lengths `2 ≤ L ≤ capacity − 1`).  For every such
chunk, `handle_rx` writes a terminator byte at position `L`; if the buffer
byte at position `L − 2` is a carriage return it additionally replaces that
byte with the terminator; the resulting buffer is a valid null-terminated
string whose C string ends at or before `L` (at or before `L − 2` when the
trailing carriage return was present), and without a trailing carriage
return the buffer is exactly the copied chunk, terminator, and untouched
old tail. -/
theorem C1_line_framing (maxLine : Nat) (oldBuf chunk : List Nat)
    (h2 : 2 ≤ chunk.length) (hlen : chunk.length ≤ maxLine)
    (hcap : maxLine ≤ 2 ^ 64 - 3) :
    ∃ e, handle_rx maxLine oldBuf chunk = some e ∧
      e.buf[chunk.length]? = some 0 ∧
      (cstr e.buf).length ≤ chunk.length ∧
      ((strncpyBytes chunk)[chunk.length - 2]? = some 13 →
        e.buf[chunk.length - 2]? = some 0 ∧
        (cstr e.buf).length ≤ chunk.length - 2) ∧
      ((strncpyBytes chunk)[chunk.length - 2]? ≠ some 13 →
        e.buf = strncpyBytes chunk ++ 0 :: oldBuf.drop (chunk.length + 1)) := by
  rw [handle_rx_eq maxLine oldBuf chunk h2 hlen hcap]
  have hgetsub :
      (strncpyBytes chunk ++ 0 :: oldBuf.drop (chunk.length + 1))[chunk.length - 2]?
        = (strncpyBytes chunk)[chunk.length - 2]? :=
    copyBuf_getElem_lt chunk (oldBuf.drop (chunk.length + 1)) (chunk.length - 2)
      (by omega)
  have hterm := copyBuf_getElem_term chunk (oldBuf.drop (chunk.length + 1))
  have hlenbuf : chunk.length - 2 <
      (strncpyBytes chunk ++ 0 :: oldBuf.drop (chunk.length + 1)).length := by
    rw [List.length_append, strncpyBytes_length]
    simp only [List.length_cons]
    omega
  by_cases hcr : (strncpyBytes chunk)[chunk.length - 2]? = some 13
  · refine ⟨_, rfl, ?_, ?_, ?_, ?_⟩
    · simp only [hgetsub, hcr, if_pos]
      rw [List.getElem?_set_ne (by omega)]
      exact hterm
    · simp only [hgetsub, hcr, if_pos]
      apply cstr_length_le _ chunk.length
      rw [List.getElem?_set_ne (by omega)]
      exact hterm
    · intro _
      constructor
      · simp only [hgetsub, hcr, if_pos]
        exact List.getElem?_set_eq_of_lt 0 hlenbuf
      · simp only [hgetsub, hcr, if_pos]
        apply cstr_length_le _ (chunk.length - 2)
        exact List.getElem?_set_eq_of_lt 0 hlenbuf
    · intro hne
      exact absurd hcr hne
  · refine ⟨_, rfl, ?_, ?_, ?_, ?_⟩
    · simp only [hgetsub, hcr, if_neg, ite_false]
      exact hterm
    · simp only [hgetsub, hcr, if_neg, ite_false]
      exact cstr_length_le _ chunk.length hterm
    · intro hc
      exact absurd hc hcr
    · intro _
      simp only [hgetsub, hcr, if_neg, ite_false]

/-- C1, witness: a four-byte chunk ending in a carriage-return/line-feed
pair, capacity 64 and an all-zero previous buffer. -/
theorem C1_line_framing_witness :
    ∃ e, handle_rx 63 (List.replicate 64 0) [72, 73, 13, 10] = some e ∧
      e.buf[List.length [72, 73, 13, 10]]? = some 0 ∧
      (cstr e.buf).length ≤ List.length [72, 73, 13, 10] ∧
      ((strncpyBytes [72, 73, 13, 10])[List.length [72, 73, 13, 10] - 2]? = some 13 →
        e.buf[List.length [72, 73, 13, 10] - 2]? = some 0 ∧
        (cstr e.buf).length ≤ List.length [72, 73, 13, 10] - 2) ∧
      ((strncpyBytes [72, 73, 13, 10])[List.length [72, 73, 13, 10] - 2]? ≠ some 13 →
        e.buf = strncpyBytes [72, 73, 13, 10]
          ++ 0 :: (List.replicate 64 0).drop (List.length [72, 73, 13, 10] + 1)) :=
  C1_line_framing 63 (List.replicate 64 0) [72, 73, 13, 10]
    (by decide) (by decide) (by norm_num)


/-- C2, evaluation at the failing input.  A 64-byte chunk with capacity 64
(maximum line length 63) makes `handle_rx` write the terminator at cell 64,
one past the end of the 64-cell buffer: the model reports the out-of-bounds
access (`none`); the source has no bounds check and no clean BufferOverflow
path. -/
theorem C2_overflow_oob :
    handle_rx 63 (List.replicate 64 0) (List.replicate 64 65) = none := by decide

/-- C3, evaluation at the failing inputs.  For chunks of length 0 and 1 the
source reads `mbuf[data_len - 2]` unconditionally; the `size_t` index wraps
to `2 ^ 64 - 2` respectively `2 ^ 64 - 1`, far outside the 64-cell buffer:
the model reports the out-of-bounds access (`none`); the source has no
length guard before the lookup. -/
theorem C3_underflow_oob :
    handle_rx 63 (List.replicate 64 0) [] = none ∧
    handle_rx 63 (List.replicate 64 0) [66] = none := by
  exact ⟨by decide, by decide⟩

/-- C4, counterexample.  For the chunk "OK\r\n" (bytes 79 75 13 10, within
capacity 64), the bytes handed to the wireless send are the full chunk with
the carriage-return/line-feed pair intact, not the stripped line [79, 75]:
`handle_rx` calls `nordic_uart_send` before the carriage-return
replacement. -/
theorem C4_counterexample :
    ¬ ((handle_rx 63 (List.replicate 64 0) [79, 75, 13, 10]).map RxEffect.sent
        = some [79, 75]) := by decide

/-- C4 (amended).  In the wired-to-wireless pump the chunk is copied and
null-terminated and then sent on the wireless adapter with any trailing
carriage return still present: the sent bytes are the chunk up to its first
null byte (the whole chunk when it has none).  The replacement of a
trailing carriage return at position `length − 2` by the terminator happens
only after the send and affects only the logged line, which is the sent
line truncated at `length − 2` exactly when the buffer byte there is a
carriage return. -/
theorem C4_send_before_strip (maxLine : Nat) (oldBuf chunk : List Nat)
    (h2 : 2 ≤ chunk.length) (hlen : chunk.length ≤ maxLine)
    (hcap : maxLine ≤ 2 ^ 64 - 3) :
    ∃ e, handle_rx maxLine oldBuf chunk = some e ∧
      e.sent = chunk.takeWhile (· ≠ 0) ∧
      (0 ∉ chunk → e.sent = chunk) ∧
      ((strncpyBytes chunk)[chunk.length - 2]? = some 13 →
        e.logged = (chunk.takeWhile (· ≠ 0)).take (chunk.length - 2)) ∧
      ((strncpyBytes chunk)[chunk.length - 2]? ≠ some 13 →
        e.logged = chunk.takeWhile (· ≠ 0)) := by
  rw [handle_rx_eq maxLine oldBuf chunk h2 hlen hcap]
  have hgetsub :
      (strncpyBytes chunk ++ 0 :: oldBuf.drop (chunk.length + 1))[chunk.length - 2]?
        = (strncpyBytes chunk)[chunk.length - 2]? :=
    copyBuf_getElem_lt chunk (oldBuf.drop (chunk.length + 1)) (chunk.length - 2)
      (by omega)
  have hcstr := cstr_strncpy_append chunk (oldBuf.drop (chunk.length + 1))
  by_cases hcr : (strncpyBytes chunk)[chunk.length - 2]? = some 13
  · refine ⟨_, rfl, hcstr, ?_, ?_, ?_⟩
    · intro h0
      rw [hcstr]
      exact takeWhile_of_no_null chunk h0
    · intro _
      simp only [hgetsub, hcr, if_pos]
      rw [cstr_set_zero, hcstr]
    · intro hne
      exact absurd hcr hne
  · refine ⟨_, rfl, hcstr, ?_, ?_, ?_⟩
    · intro h0
      rw [hcstr]
      exact takeWhile_of_no_null chunk h0
    · intro hc
      exact absurd hc hcr
    · intro _
      simp only [hgetsub, hcr, if_neg, ite_false]
      exact hcstr

/-- C4, witness: the chunk "MD\r\n" (bytes 77 68 13 10), capacity 64. -/
theorem C4_send_before_strip_witness :
    ∃ e, handle_rx 63 (List.replicate 64 0) [77, 68, 13, 10] = some e ∧
      e.sent = [77, 68, 13, 10].takeWhile (· ≠ 0) ∧
      (0 ∉ [77, 68, 13, 10] → e.sent = [77, 68, 13, 10]) ∧
      ((strncpyBytes [77, 68, 13, 10])[List.length [77, 68, 13, 10] - 2]? = some 13 →
        e.logged = ([77, 68, 13, 10].takeWhile (· ≠ 0)).take
          (List.length [77, 68, 13, 10] - 2)) ∧
      ((strncpyBytes [77, 68, 13, 10])[List.length [77, 68, 13, 10] - 2]? ≠ some 13 →
        e.logged = [77, 68, 13, 10].takeWhile (· ≠ 0)) :=
  C4_send_before_strip 63 (List.replicate 64 0) [77, 68, 13, 10]
    (by decide) (by decide) (by norm_num)

/-- C5, counterexample.  With the wired device handle absent
(`cdc_dev == NULL`) the pump still performs a wired-send attempt for the
dequeued one-byte chunk (the trace contains one `cdc_acm_host_data_tx_blocking`
call): the chunk is not dropped "without a send attempt" — `echoTask`
never checks `cdc_dev` before calling the send. -/
theorem C5_counterexample :
    ¬ ((echoTask_chunk 63 (List.replicate 64 0) [65] false true).map countTx
        = some 0) := by decide

/-- C5 (amended).  For every chunk the pump dequeues (of length below the
buffer capacity), it performs exactly one wired blocking-send attempt with
the 1000 ms timeout regardless of whether the wired device handle is
present — when the handle is absent the attempt is made with the null
handle and fails inside the driver; a failed or timed-out send is logged as
a warning; in every case the item is released back to the ring buffer as
the last action, and the loop continues with the next dequeue. -/
theorem C5_pump_always_sends (maxLine : Nat) (oldBuf chunk : List Nat)
    (devPresent sendOk : Bool) (hlen : chunk.length ≤ maxLine) :
    ∃ tr, echoTask_chunk maxLine oldBuf chunk devPresent sendOk = some tr ∧
      countTx tr = 1 ∧
      EchoAct.cdcTx devPresent (chunk.takeWhile (· ≠ 0))
        (chunk.takeWhile (· ≠ 0)).length USB_TX_TIMEOUT_MS ∈ tr ∧
      (sendOk = false → EchoAct.logSendFail ∈ tr) ∧
      tr.getLast? = some EchoAct.returnItem := by
  have hlt : chunk.length < capacity maxLine := by
    simp only [capacity]; omega
  have hcstr := cstr_strncpy_append chunk (oldBuf.drop (chunk.length + 1))
  refine ⟨[EchoAct.logLine (chunk.takeWhile (· ≠ 0)),
      EchoAct.cdcTx devPresent (chunk.takeWhile (· ≠ 0))
        (chunk.takeWhile (· ≠ 0)).length USB_TX_TIMEOUT_MS]
      ++ (if sendOk then [] else [EchoAct.logSendFail]) ++ [EchoAct.returnItem],
    ?_, ?_, ?_, ?_, ?_⟩
  · simp only [echoTask_chunk, copy_terminate, hlt, if_pos, hcstr]
  · cases sendOk <;> simp [countTx]
  · cases sendOk <;> simp
  · cases sendOk <;> simp
  · cases sendOk <;> rfl

/-- C5, witness: one-byte chunk 66, wired handle absent, failed send. -/
theorem C5_pump_always_sends_witness :
    ∃ tr, echoTask_chunk 63 (List.replicate 64 0) [66] false false = some tr ∧
      countTx tr = 1 ∧
      EchoAct.cdcTx false ([66].takeWhile (· ≠ 0))
        ([66].takeWhile (· ≠ 0)).length USB_TX_TIMEOUT_MS ∈ tr ∧
      (false = false → EchoAct.logSendFail ∈ tr) ∧
      tr.getLast? = some EchoAct.returnItem :=
  C5_pump_always_sends 63 (List.replicate 64 0) [66] false false (by decide)

/-- C6.  For every CDC device event, each give of the disconnect semaphore
in the callback's action sequence is preceded by a close of the device
handle, and the semaphore is given exactly once for a disconnect event and
never for any other event — so the lifecycle manager never observes the
signal set while the handle is still open, and one open/close cycle
produces exactly one signal. -/
theorem C6_close_before_signal (e : CdcEvent) :
    closedBeforeGiven false (handle_event e) = true ∧
    countGive (handle_event e) = (if e = CdcEvent.deviceDisconnected then 1 else 0) := by
  cases e <;> simp [handle_event, closedBeforeGiven, countGive]

/-- C6, witness: the disconnect event itself. -/
theorem C6_close_before_signal_witness :
    closedBeforeGiven false (handle_event CdcEvent.deviceDisconnected) = true ∧
    countGive (handle_event CdcEvent.deviceDisconnected)
      = (if CdcEvent.deviceDisconnected = CdcEvent.deviceDisconnected then 1 else 0) :=
  C6_close_before_signal CdcEvent.deviceDisconnected

/-- C7, counterexample.  For the dequeued chunk [65, 13] ("A\r", trailing
carriage return, capacity 64) the bytes handed to the wired blocking send
are [65, 13], not the trimmed [65]: `echoTask` copies and null-terminates
but performs no carriage-return trimming. -/
theorem C7_counterexample :
    ¬ ((echoTask_chunk 63 (List.replicate 64 0) [65, 13] true true).map firstTxBytes
        = some (some [65])) := by decide

/-- C7 (amended).  In the wireless-to-wired direction every dequeued chunk
(of length below the buffer capacity) is copied into the bounded line
buffer and null-terminated before the wired blocking send, and the bytes
handed to the wired send are the buffer's C string — the chunk up to its
first null byte, the whole chunk when it has none.  No trailing
carriage-return trimming is performed in this direction. -/
theorem C7_copy_terminate_send (maxLine : Nat) (oldBuf chunk : List Nat)
    (devPresent sendOk : Bool) (hlen : chunk.length ≤ maxLine) :
    ∃ tr, echoTask_chunk maxLine oldBuf chunk devPresent sendOk = some tr ∧
      tr.head? = some (EchoAct.logLine (chunk.takeWhile (· ≠ 0))) ∧
      firstTxBytes tr = some (chunk.takeWhile (· ≠ 0)) ∧
      (0 ∉ chunk → firstTxBytes tr = some chunk) := by
  have hlt : chunk.length < capacity maxLine := by
    simp only [capacity]; omega
  have hcstr := cstr_strncpy_append chunk (oldBuf.drop (chunk.length + 1))
  refine ⟨[EchoAct.logLine (chunk.takeWhile (· ≠ 0)),
      EchoAct.cdcTx devPresent (chunk.takeWhile (· ≠ 0))
        (chunk.takeWhile (· ≠ 0)).length USB_TX_TIMEOUT_MS]
      ++ (if sendOk then [] else [EchoAct.logSendFail]) ++ [EchoAct.returnItem],
    ?_, ?_, ?_, ?_⟩
  · simp only [echoTask_chunk, copy_terminate, hlt, if_pos, hcstr]
  · rfl
  · rfl
  · intro h0
    simp only [firstTxBytes, List.cons_append]
    rw [takeWhile_of_no_null chunk h0]

/-- C7, witness: the chunk [67, 13] ending in a carriage return — the
bytes handed to the wired send keep the carriage return. -/
theorem C7_copy_terminate_send_witness :
    ∃ tr, echoTask_chunk 63 (List.replicate 64 0) [67, 13] true true = some tr ∧
      tr.head? = some (EchoAct.logLine ([67, 13].takeWhile (· ≠ 0))) ∧
      firstTxBytes tr = some ([67, 13].takeWhile (· ≠ 0)) ∧
      (0 ∉ [67, 13] → firstTxBytes tr = some [67, 13]) :=
  C7_copy_terminate_send 63 (List.replicate 64 0) [67, 13] true true (by decide)

/-- C8.  When the open and every configuration call succeed, one lifecycle
iteration performs, in order: the device open, the 100 ms settle delay, a
line-coding get, the line-coding set with rate 115200, eight data bits,
parity type 0 and character-format (stop-bit field) 1, a line-coding get
reading back the applied values, the control-line-state set with DTR
asserted and RTS not asserted, and then blocks on the disconnect
semaphore (the Connected state). -/
theorem C8_configure_trace :
    app_main_iter true true true true true =
      [HostAction.openDev MD9600_USB_DEVICE_VID MD9600_USB_DEVICE_PID,
       HostAction.delayMs 100,
       HostAction.lineCodingGet,
       HostAction.lineCodingSet 115200 8 0 1,
       HostAction.lineCodingGet,
       HostAction.setControlLineState true false,
       HostAction.takeDisconnectSem] ∧
    outcomeOf (app_main_iter true true true true true) = LoopOutcome.connectedWait := by
  exact ⟨rfl, rfl⟩

/-- C9.  A failed open is recoverable — the iteration logs the failure and
its outcome is an immediate retry — while a failure of any configuration
call (either line-coding get, the line-coding set, or the
control-line-state set) makes the iteration's outcome the termination of
the whole process, not a return to the idle/retry state. -/
theorem C9_config_fatal_open_retried (openOk g1 s1 g2 ctrl : Bool) :
    (openOk = false →
      outcomeOf (app_main_iter openOk g1 s1 g2 ctrl) = LoopOutcome.retryOpen ∧
      HostAction.logOpenFailed ∈ app_main_iter openOk g1 s1 g2 ctrl) ∧
    (openOk = true → (g1 && s1 && g2 && ctrl) = false →
      outcomeOf (app_main_iter openOk g1 s1 g2 ctrl) = LoopOutcome.aborted) := by
  cases openOk <;> cases g1 <;> cases s1 <;> cases g2 <;> cases ctrl <;> decide

/-- C9, witness: a failed open retries; a failed line-coding set aborts. -/
theorem C9_config_fatal_open_retried_witness :
    outcomeOf (app_main_iter false true true true true) = LoopOutcome.retryOpen ∧
    HostAction.logOpenFailed ∈ app_main_iter false true true true true ∧
    outcomeOf (app_main_iter true true false true true) = LoopOutcome.aborted :=
  ⟨((C9_config_fatal_open_retried false true true true true).1 rfl).1,
   ((C9_config_fatal_open_retried false true true true true).1 rfl).2,
   (C9_config_fatal_open_retried true true false true true).2 rfl rfl⟩

/-- C10.  The byte count handed to the wired blocking send is the length of
the framed C string (strlen of the buffer), not the dequeued item's size:
the sent bytes are the chunk up to its first null byte with exactly that
length; for a chunk containing an embedded null only the bytes before the
first null are sent, and for a chunk without nulls the full chunk is sent
with its full length. -/
theorem C10_strlen_not_item_size (maxLine : Nat) (oldBuf chunk : List Nat)
    (devPresent sendOk : Bool) (hlen : chunk.length ≤ maxLine) :
    ∃ tr, echoTask_chunk maxLine oldBuf chunk devPresent sendOk = some tr ∧
      firstTxBytes tr = some (chunk.takeWhile (· ≠ 0)) ∧
      firstTxLen tr = some (chunk.takeWhile (· ≠ 0)).length ∧
      (0 ∉ chunk →
        firstTxBytes tr = some chunk ∧ firstTxLen tr = some chunk.length) := by
  have hlt : chunk.length < capacity maxLine := by
    simp only [capacity]; omega
  have hcstr := cstr_strncpy_append chunk (oldBuf.drop (chunk.length + 1))
  refine ⟨[EchoAct.logLine (chunk.takeWhile (· ≠ 0)),
      EchoAct.cdcTx devPresent (chunk.takeWhile (· ≠ 0))
        (chunk.takeWhile (· ≠ 0)).length USB_TX_TIMEOUT_MS]
      ++ (if sendOk then [] else [EchoAct.logSendFail]) ++ [EchoAct.returnItem],
    ?_, ?_, ?_, ?_⟩
  · simp only [echoTask_chunk, copy_terminate, hlt, if_pos, hcstr]
  · rfl
  · rfl
  · intro h0
    have heq := takeWhile_of_no_null chunk h0
    constructor
    · simp only [firstTxBytes, List.cons_append]
      rw [heq]
    · simp only [firstTxLen, List.cons_append]
      rw [heq]

/-- C10, witness: the chunk [72, 0, 73] with an embedded null — only the
byte before the null is handed to the wired send, with length 1. -/
theorem C10_strlen_not_item_size_witness :
    ∃ tr, echoTask_chunk 63 (List.replicate 64 0) [72, 0, 73] true true = some tr ∧
      firstTxBytes tr = some ([72, 0, 73].takeWhile (· ≠ 0)) ∧
      firstTxLen tr = some ([72, 0, 73].takeWhile (· ≠ 0)).length ∧
      (0 ∉ [72, 0, 73] →
        firstTxBytes tr = some [72, 0, 73] ∧ firstTxLen tr = some (List.length [72, 0, 73])) :=
  C10_strlen_not_item_size 63 (List.replicate 64 0) [72, 0, 73] true true (by decide)
